import Mathlib

/-!
Verification of the reading-engine of the sezi repository.

The definitions below are a shallow embedding of the playback and
position-tracking engine in `frontend/src/pages/Reader.jsx` and of the
persistence hooks in `frontend/src/hooks/useDocuments.js`.  Pure functions of
the source become Lean functions; the timer callback of the auto-play effect
becomes an explicit step function on an explicit reader state; the network
calls (`saveProgress`, `updateStats`, `sendBeacon`) become records collected in
lists or options.  JavaScript numbers are modelled as `Nat` where the source
only ever holds non-negative integers, and as `ℚ` where the source computes
with fractional milliseconds.
-/

namespace Sezi

/-- Reading granularity: `'word' | 'sentence' | 'page'` in the source. -/
inductive Mode where
  | word
  | sentence
  | page
deriving DecidableEq

/-- One page of the loaded document: `{ words, sentences, text }`. -/
structure Page where
  words : List String
  sentences : List String
  text : String
deriving DecidableEq

/-- The loaded document as the reader sees it: `doc.document.pages`,
`doc.document.total_pages` and `doc.stats.total_words`. -/
structure Doc where
  pages : List Page
  totalPages : Nat
  totalWords : Nat
deriving DecidableEq

/-- The reader's cursor state: `mode`, `isPlaying`, `currentPage` (1-based),
`currentIndex` (0-based). -/
structure ReaderState where
  mode : Mode
  isPlaying : Bool
  currentPage : Nat
  currentIndex : Nat
deriving DecidableEq

/-- Total word count of a list of pages (the running denominators the source
computes by summing `pages[i].words.length`). -/
def sumWords (ps : List Page) : Nat :=
  (ps.map (fun p => p.words.length)).sum

/-- `getCurrentContent` (Reader.jsx lines 54-62): the unit sequence of the
current page for the active mode; `[]` when the page does not exist. -/
def getCurrentContent (doc : Doc) (s : ReaderState) : List String :=
  match doc.pages[s.currentPage - 1]? with
  | none => []
  | some page =>
    match s.mode with
    | Mode.word => page.words
    | Mode.sentence => page.sentences
    | Mode.page => [page.text]

/-- `calculateTotalPosition` / `getAbsolutePosition` (Reader.jsx lines 77-85
and 202-210): words of all pages strictly before `page`, plus `index`. -/
def calculateTotalPosition (doc : Doc) (page index : Nat) : Nat :=
  sumWords (doc.pages.take (page - 1)) + index

/-- `getAbsolutePosition` applied to the current cursor. -/
def getAbsolutePosition (doc : Doc) (s : ReaderState) : Nat :=
  calculateTotalPosition doc s.currentPage s.currentIndex

/-- Scan pages from 0-based index `i` onward for the first page with at least
one word, returning its 1-based page number; helper for the
`for (let i = ...; i < pages.length; i++) if (pages[i].words.length > 0)`
loops of the source. -/
def firstContentAux : List Page → Nat → Option Nat
  | [], _ => none
  | p :: rest, i =>
    if p.words.length > 0 then some (i + 1) else firstContentAux rest (i + 1)

/-- First page with content at 0-based index ≥ `start`, as a 1-based page
number. -/
def firstContentFrom (pages : List Page) (start : Nat) : Option Nat :=
  firstContentAux (pages.drop start) start

/-- Scan 0-based indices `k-1, k-2, ..., 0` for a page with at least one word,
returning its 1-based page number; helper for the downward loop of
`findPrevPageWithContent`. -/
def scanDown (pages : List Page) : Nat → Option Nat
  | 0 => none
  | k + 1 =>
    match pages[k]? with
    | some p => if p.words.length > 0 then some (k + 1) else scanDown pages k
    | none => scanDown pages k

/-- `findNextPageWithContent` (Reader.jsx lines 362-370): first page with words
at 0-based index ≥ `fromPage`, else stay on `fromPage`. -/
def findNextPageWithContent (doc : Doc) (fromPage : Nat) : Nat :=
  (firstContentFrom doc.pages fromPage).getD fromPage

/-- `findPrevPageWithContent` (Reader.jsx lines 373-381): scan 0-based indices
`fromPage-2` down to `0`, else stay on `fromPage`. -/
def findPrevPageWithContent (doc : Doc) (fromPage : Nat) : Nat :=
  (scanDown doc.pages (fromPage - 1)).getD fromPage

/-- A call to the progress collaborator: the arguments of
`saveProgress(page, position, mode, completed)` in useDocuments.js
(lines 95-111) and of the `sendBeacon` payload. -/
structure SaveCall where
  page : Nat
  position : Nat
  mode : Mode
  completed : Bool
deriving DecidableEq

/-- Result of one auto-play timer callback: the new reader state, the words
added to `wordsReadRef`, and the persistence calls issued. -/
structure TickResult where
  state : ReaderState
  wordsReadDelta : Nat
  saves : List SaveCall
deriving DecidableEq

/-- JavaScript `str.split(' ')` on a character list: split at every single
space character. -/
def splitChar (sep : Char) : List Char → List Char → List String
  | [], cur => [String.mk cur.reverse]
  | c :: rest, cur =>
    if c = sep then String.mk cur.reverse :: splitChar sep rest []
    else splitChar sep rest (c :: cur)

/-- JavaScript `str.split(' ')`. -/
def jsSplitSpace (s : String) : List String :=
  splitChar ' ' s.data []

/-- Accumulator loop for JavaScript `str.split(/\s+/)`: `cur` is the current
segment reversed, `acc` the finished segments, `prevWs` whether the previous
character was whitespace (so a run of whitespace yields one single cut). -/
def splitWsAux : List Char → List Char → List String → Bool → List String
  | [], cur, acc, _ => acc ++ [String.mk cur.reverse]
  | c :: rest, cur, acc, prevWs =>
    if c.isWhitespace then
      if prevWs then splitWsAux rest [] acc true
      else splitWsAux rest [] (acc ++ [String.mk cur.reverse]) true
    else splitWsAux rest (c :: cur) acc false

/-- JavaScript `str.split(/\s+/)`: split on maximal whitespace runs, keeping
an empty leading/trailing segment when the string starts/ends with
whitespace. -/
def jsSplitWhitespace (s : String) : List String :=
  splitWsAux s.data [] [] false

/-- One auto-play timer callback (Reader.jsx lines 167-191).  Given the state
the effect closed over, it either advances the index on the current page, or
jumps to the next page with content, or — at the end of the document — stops
playback and issues one `saveProgress(currentPage, currentIndex, mode, true)`
call. -/
def tickStep (doc : Doc) (s : ReaderState) : TickResult :=
  let content := getCurrentContent doc s
  let currentItem := content.getD s.currentIndex ""
  if s.currentIndex < content.length - 1 then
    { state := { s with currentIndex := s.currentIndex + 1 }
      wordsReadDelta :=
        if s.mode = Mode.word then 1
        else
          let n := (jsSplitSpace currentItem).length
          if n = 0 then 1 else n
      saves := [] }
  else if s.currentPage < doc.totalPages then
    let nextPage := (firstContentFrom doc.pages s.currentPage).getD (s.currentPage + 1)
    { state := { s with currentPage := nextPage, currentIndex := 0 }
      wordsReadDelta :=
        if s.mode = Mode.page then
          ((doc.pages[s.currentPage - 1]?).map (fun p => p.words.length)).getD 0
        else 0
      saves := [] }
  else
    { state := { s with isPlaying := false }
      wordsReadDelta := 0
      saves := [{ page := s.currentPage, position := s.currentIndex,
                  mode := s.mode, completed := true }] }

/-- The inter-step delay the auto-play effect schedules (Reader.jsx lines
153-165): `none` when not playing or the content is empty, otherwise the
timeout in milliseconds computed from the mode and the current item. -/
def autoPlayDelay (doc : Doc) (s : ReaderState) (speed : ℚ) : Option ℚ :=
  let content := getCurrentContent doc s
  if s.isPlaying = true ∧ content ≠ [] then
    let currentItem := content.getD s.currentIndex ""
    let baseInterval : ℚ := 60000 / speed
    some (match s.mode with
      | Mode.page =>
        let n := (jsSplitWhitespace currentItem).length
        baseInterval * (if n = 0 then 1 else (n : ℚ))
      | Mode.sentence =>
        let n := (jsSplitSpace currentItem).length
        baseInterval * (if n = 0 then 1 else (n : ℚ)) * (8 / 10)
      | Mode.word => baseInterval)
  else none

/-- A concrete document with page word counts `[5, 0, 3]`, used by the
scenario claims. -/
def doc503 : Doc :=
  { pages :=
      [ { words := ["a", "b", "c", "d", "e"], sentences := ["a b c d e"],
          text := "a b c d e" }
      , { words := [], sentences := [], text := "" }
      , { words := ["f", "g", "h"], sentences := ["f g h"], text := "f g h" } ]
    totalPages := 3
    totalWords := 8 }

/-- A page with no content, used as the JavaScript-side default when a page
lookup cannot fail in the source. -/
def defaultPage : Page :=
  { words := [], sentences := [], text := "" }

/-- `handleNext` (Reader.jsx lines 407-423): advance one unit, or jump to the
next page with content.  Note that — unlike every other navigation handler —
it never touches `isPlaying`. -/
def handleNext (doc : Doc) (s : ReaderState) : ReaderState :=
  let content := getCurrentContent doc s
  if s.mode = Mode.page then
    if s.currentPage < doc.totalPages then
      { s with currentPage := findNextPageWithContent doc s.currentPage,
               currentIndex := 0 }
    else s
  else if s.currentIndex < content.length - 1 then
    { s with currentIndex := s.currentIndex + 1 }
  else if s.currentPage < doc.totalPages then
    { s with currentPage := findNextPageWithContent doc s.currentPage,
             currentIndex := 0 }
  else s

/-- `handlePrevious` (Reader.jsx lines 384-405): stop playback, then step one
unit back, crossing to the previous page with content when at index 0. -/
def handlePrevious (doc : Doc) (s : ReaderState) : ReaderState :=
  let s1 := { s with isPlaying := false }
  if s1.mode = Mode.page then
    if 1 < s1.currentPage then
      { s1 with currentPage := findPrevPageWithContent doc s1.currentPage,
                currentIndex := 0 }
    else s1
  else if 0 < s1.currentIndex then
    { s1 with currentIndex := s1.currentIndex - 1 }
  else if 1 < s1.currentPage then
    let prevPage := findPrevPageWithContent doc s1.currentPage
    let prevPageContent :=
      if s1.mode = Mode.word then
        ((doc.pages[prevPage - 1]?).getD defaultPage).words
      else ((doc.pages[prevPage - 1]?).getD defaultPage).sentences
    { s1 with currentPage := prevPage,
              currentIndex := prevPageContent.length - 1 }
  else s1

/-- `handlePrevPage` (Reader.jsx lines 425-432). -/
def handlePrevPage (doc : Doc) (s : ReaderState) : ReaderState :=
  if 1 < s.currentPage then
    { s with isPlaying := false,
             currentPage := findPrevPageWithContent doc s.currentPage,
             currentIndex := 0 }
  else s

/-- `handleNextPage` (Reader.jsx lines 434-441). -/
def handleNextPage (doc : Doc) (s : ReaderState) : ReaderState :=
  if s.currentPage < doc.totalPages then
    { s with isPlaying := false,
             currentPage := findNextPageWithContent doc s.currentPage,
             currentIndex := 0 }
  else s

/-- `handleGoToPage` (Reader.jsx lines 444-454): numeric page jump, guarded by
`pageNum >= 1 && pageNum <= totalPages`. -/
def handleGoToPage (doc : Doc) (s : ReaderState) (pageNum : Nat) : ReaderState :=
  if 1 ≤ pageNum ∧ pageNum ≤ doc.totalPages then
    { s with isPlaying := false, currentPage := pageNum, currentIndex := 0 }
  else s

/-- The mode-toggle buttons (Reader.jsx lines 725, 732, 739):
`setMode(m); setCurrentIndex(0); setIsPlaying(false)`. -/
def handleModeSwitch (s : ReaderState) (m : Mode) : ReaderState :=
  { s with mode := m, currentIndex := 0, isPlaying := false }

/-- The cumulative scan of `updateProgressFromPosition` (Reader.jsx lines
469-488): walk the pages accumulating word counts; on the first page whose
range contains `target`, stop playback and set the cursor per mode; if no
page's range contains `target`, the loop ends and the state is unchanged.
In sentence mode the source computes
`Math.floor((target - cumulative) / pageWords * sentenceCount)` and clamps to
the last sentence (the page found always has `pageWords > 0`, and pages with
words are assumed to have at least one sentence, matching the extractor). -/
def seekResolve (mode : Mode) (target cum : Nat) (p : Page) (i : Nat)
    (s : ReaderState) : ReaderState :=
  let pageWords := p.words.length
  match mode with
  | Mode.page =>
    { s with isPlaying := false, currentPage := i + 1, currentIndex := 0 }
  | Mode.word =>
    { s with isPlaying := false, currentPage := i + 1,
             currentIndex := min (target - cum) (pageWords - 1) }
  | Mode.sentence =>
    let sentenceCount := p.sentences.length
    let pageProgress : ℚ := ((target - cum : Nat) : ℚ) / (pageWords : ℚ)
    { s with isPlaying := false, currentPage := i + 1,
             currentIndex :=
               min (Int.toNat ⌊pageProgress * (sentenceCount : ℚ)⌋)
                   (sentenceCount - 1) }

/-- The page-walking loop of `updateProgressFromPosition`. -/
def seekAux (mode : Mode) (target : Nat) (s : ReaderState) :
    List Page → Nat → Nat → ReaderState
  | [], _, _ => s
  | p :: rest, i, cum =>
    if cum + p.words.length > target then seekResolve mode target cum p i s
    else seekAux mode target s rest (i + 1) (cum + p.words.length)

/-- `updateProgressFromPosition` (Reader.jsx lines 457-489) after the target
offset has been computed from the pointer position. -/
def updateProgressFromPosition (doc : Doc) (s : ReaderState) (target : Nat) :
    ReaderState :=
  seekAux s.mode target s doc.pages 0 0

/-- The pointer-to-offset computation of `updateProgressFromPosition`
(Reader.jsx lines 460-466): clamp the fraction to `[0, 1]` and take
`Math.floor(percentage * totalWords)`. -/
def seekTarget (doc : Doc) (fraction : ℚ) : Nat :=
  let percentage := max 0 (min fraction 1)
  Int.toNat ⌊percentage * (doc.totalWords : ℚ)⌋

/-- The cumulative loop of the load-saved-progress effect (Reader.jsx lines
99-112): walk pages accumulating word counts; the first page whose cumulative
range contains `savedPos` wins; if the loop runs off the end, the final
iteration has set the accumulator to the last page with the index
`lastPageWords - 1` (the `Math.max(0, targetIndex)` applied afterwards by the
source coincides with truncated `Nat` subtraction here). -/
def loadScanAux (savedPos : Nat) :
    List Page → Nat → Nat → Nat × Nat → Nat × Nat
  | [], _, _, acc => acc
  | p :: rest, i, cum, acc =>
    let w := p.words.length
    if cum + w > savedPos then (i + 1, savedPos - cum)
    else
      let acc1 := if rest.isEmpty then (i + 1, w - 1) else acc
      loadScanAux savedPos rest (i + 1) (cum + w) acc1

/-- The load-saved-progress effect (Reader.jsx lines 88-130): resolve the
saved absolute position to a `(page, index)` pair; when the saved position is
0, override with the first page that has words (`pages.findIndex`), falling
back to the saved page when no page has words. -/
def loadProgress (doc : Doc) (savedPage savedPos : Nat) : Nat × Nat :=
  let scanned := loadScanAux savedPos doc.pages 0 0 (1, 0)
  if savedPos = 0 then
    match firstContentFrom doc.pages 0 with
    | some p => (p, 0)
    | none => (savedPage, 0)
  else scanned

/-- The trailing-punctuation character class of `getBionicParts`
(Reader.jsx line 552): the regex `[.!?;:,]`. -/
def isPunctChar (c : Char) : Bool :=
  c = '.' || c = '!' || c = '?' || c = ';' || c = ':' || c = ','

/-- The `punctuation` of `getBionicParts` (Reader.jsx line 552): the match of
the regex `([.!?;:,]+)$`, i.e. the maximal trailing run of punctuation
characters, as a character list (`takeWhile` on the reversed list). -/
def bionicPunct (w : String) : List Char :=
  (w.data.reverse.takeWhile isPunctChar).reverse

/-- The `cleanWord` of `getBionicParts` (Reader.jsx line 554):
`word.slice(0, -punctuation.length)`, i.e. the characters left once the
trailing punctuation run is stripped (`dropWhile` on the reversed list). -/
def bionicClean (w : String) : List Char :=
  (w.data.reverse.dropWhile isPunctChar).reverse

/-- `getBionicParts` (Reader.jsx lines 548-569) as `(highlighted, rest,
punctuation)`.  `Math.ceil(length * 0.45)` equals `(9 * length + 19) / 20` in
integer arithmetic: the double-precision product never crosses an integer
boundary, as the exact value `9L/20` is at distance at least `1/20` from
every integer it is not equal to, and the rounding error of the product is
far smaller. -/
def getBionicParts (word : String) : String × String × String :=
  if word.data.isEmpty then ("", "", "")
  else if (bionicClean word).length = 0 then ("", "", String.mk (bionicPunct word))
  else if (bionicClean word).length = 1 then
    (String.mk (bionicClean word), "", String.mk (bionicPunct word))
  else if (bionicClean word).length = 2 then
    (String.mk ((bionicClean word).take 1), String.mk ((bionicClean word).drop 1),
     String.mk (bionicPunct word))
  else if (bionicClean word).length = 3 then
    (String.mk ((bionicClean word).take 2), String.mk ((bionicClean word).drop 2),
     String.mk (bionicPunct word))
  else
    (String.mk ((bionicClean word).take (max 1 ((9 * (bionicClean word).length + 19) / 20))),
     String.mk ((bionicClean word).drop (max 1 ((9 * (bionicClean word).length + 19) / 20))),
     String.mk (bionicPunct word))

/-- The highlight length prescribed by the specification for a clean word of
length `L`: `L=0` nothing, `L=1` the entire letter, `L=2` the first letter,
`L=3` the first two letters, `L≥4` the first `ceil(L * 0.45)` characters with
a minimum of 1. -/
def specHighlightLen (L : Nat) : Nat :=
  if L = 0 then 0
  else if L = 1 then 1
  else if L = 2 then 1
  else if L = 3 then 2
  else max 1 (Nat.ceil ((45 / 100 : ℚ) * (L : ℚ)))

/-- The number of words of a string in the sense of the specification: the
number of maximal runs of non-whitespace characters. -/
def wordCount (s : String) : Nat :=
  ((jsSplitWhitespace s).filter (fun w => w ≠ "")).length

/-- The `latestPositionRef` record (Reader.jsx lines 49 and 213-220): the most
recently rendered cursor together with its absolute position. -/
structure LatestPosition where
  page : Nat
  index : Nat
  mode : Mode
  absolutePosition : Nat
deriving DecidableEq

/-- The effect keeping `latestPositionRef` up to date (Reader.jsx lines
213-220). -/
def latestPositionOf (doc : Doc) (s : ReaderState) : LatestPosition :=
  { page := s.currentPage, index := s.currentIndex, mode := s.mode,
    absolutePosition := getAbsolutePosition doc s }

/-- `saveCurrentPosition` (Reader.jsx lines 240-252), shared by the
visibility-change, before-unload and unmount-cleanup triggers: the progress
record put on the wire via `sendBeacon`, always with `completed: false`. -/
def saveCurrentPosition (latest : LatestPosition) : SaveCall :=
  { page := latest.page, position := latest.absolutePosition,
    mode := latest.mode, completed := false }

/-- The debounced save (Reader.jsx lines 223-232):
`saveProgress(currentPage, getAbsolutePosition(), mode)` with the default
`completed = false`. -/
def debouncedSaveCall (doc : Doc) (s : ReaderState) : SaveCall :=
  { page := s.currentPage, position := getAbsolutePosition doc s,
    mode := s.mode, completed := false }

/-- The periodic 10-second save (Reader.jsx lines 266-269):
`saveProgress(currentPage, latestPositionRef.current.absolutePosition, mode)`.
-/
def periodicSaveCall (doc : Doc) (s : ReaderState) : SaveCall :=
  { page := s.currentPage, position := (latestPositionOf doc s).absolutePosition,
    mode := s.mode, completed := false }

/-- The progress store of the persistence collaborator, keyed by one document:
each save overwrites the previous record (last write wins). -/
def applySave (_store : Option SaveCall) (c : SaveCall) : Option SaveCall :=
  some c

/-- JavaScript `Math.round` on a non-negative rational:
`floor(x + 1/2)`. -/
def jsRound (q : ℚ) : Int :=
  ⌊q + 1 / 2⌋

/-- The mutable session-stats state of the reader: `isPlaying` plus the two
refs `sessionStartRef` (a millisecond timestamp) and `wordsReadRef`. -/
structure SessionState where
  isPlaying : Bool
  sessionStart : Option Nat
  wordsRead : Nat
deriving DecidableEq

/-- One call to `updateStats(wordsRead, timeSpent)` (useDocuments.js lines
113-127). -/
structure StatsCall where
  wordsRead : Nat
  timeSpentSeconds : Int
deriving DecidableEq

/-- The cleanup of the session-stats effect (Reader.jsx lines 289-296): if a
session start was recorded and at least one word was counted, flush
`{wordsRead, round((now - start)/1000)}` and reset both refs. -/
def statsCleanup (st : SessionState) (now : Nat) :
    SessionState × Option StatsCall :=
  match st.sessionStart with
  | some start =>
    if 0 < st.wordsRead then
      ({ st with sessionStart := none, wordsRead := 0 },
       some { wordsRead := st.wordsRead,
              timeSpentSeconds := jsRound (((now : ℚ) - (start : ℚ)) / 1000) })
    else (st, none)
  | none => (st, none)

/-- The body of the session-stats effect (Reader.jsx lines 285-287): record a
session start when playback is running and none is recorded. -/
def statsEffectBody (st : SessionState) (now : Nat) : SessionState :=
  if st.isPlaying = true ∧ st.sessionStart = none then
    { st with sessionStart := some now }
  else st

/-- A change of `isPlaying` as React executes it: the previous effect's
cleanup runs on the shared refs, then the effect body re-runs with the new
value. -/
def statsTransition (st : SessionState) (newPlaying : Bool) (now : Nat) :
    SessionState × Option StatsCall :=
  let r := statsCleanup st now
  (statsEffectBody { r.1 with isPlaying := newPlaying } now, r.2)

/-- A one-page document whose single sentence contains a double space, so its
space-split segment count (3) differs from its word count (2). -/
def docDoubleSpace : Doc :=
  { pages := [ { words := ["a", "b"], sentences := ["a  b"], text := "a  b" } ]
    totalPages := 1
    totalWords := 2 }

/-- A document whose first page has no words: a fresh open must resolve to
page 2. -/
def docEmptyFirst : Doc :=
  { pages :=
      [ { words := [], sentences := [], text := "" }
      , { words := ["x", "y"], sentences := ["x y"], text := "x y" } ]
    totalPages := 2
    totalWords := 2 }

/-- C2: in word mode on the document with page word counts `[5, 0, 3]`,
starting at page 1 index 4 (the last word) with playback running, one
scheduler tick moves the cursor to page 3 index 0 — the zero-word page 2 is
skipped — and `calculateTotalPosition` is 4 before the tick and 5 after. -/
theorem tick_skips_empty_page_scenario :
    (tickStep doc503 { mode := Mode.word, isPlaying := true,
                       currentPage := 1, currentIndex := 4 }).state.currentPage = 3
    ∧ (tickStep doc503 { mode := Mode.word, isPlaying := true,
                         currentPage := 1, currentIndex := 4 }).state.currentIndex = 0
    ∧ calculateTotalPosition doc503 1 4 = 4
    ∧ calculateTotalPosition doc503 3 0 = 5 := by
  decide

/-- The word counts of a cons of pages. -/
theorem sumWords_cons (p : Page) (rest : List Page) :
    sumWords (p :: rest) = p.words.length + sumWords rest := by
  simp [sumWords]

/-- When the target offset lies inside some page's cumulative range, the seek
scan stops playback (it sets `isPlaying := false` in every mode branch). -/
theorem seekAux_stops (mode : Mode) (target : Nat) (s : ReaderState) :
    ∀ (ps : List Page) (i cum : Nat), cum ≤ target → target < cum + sumWords ps →
      (seekAux mode target s ps i cum).isPlaying = false := by
  intro ps
  induction ps with
  | nil =>
    intro i cum h1 h2
    simp [sumWords] at h2
    omega
  | cons p rest ih =>
    intro i cum h1 h2
    rw [seekAux]
    by_cases h : cum + p.words.length > target
    · simp only [if_pos h]
      cases mode <;> rfl
    · rw [if_neg h]
      apply ih
      · omega
      · have hs := sumWords_cons p rest
        omega

/-- When the target offset is at least the total word count, the seek scan
falls off the end of the page list and returns the state unchanged. -/
theorem seekAux_out_of_range (mode : Mode) (target : Nat) (s : ReaderState) :
    ∀ (ps : List Page) (i cum : Nat), cum + sumWords ps ≤ target →
      seekAux mode target s ps i cum = s := by
  intro ps
  induction ps with
  | nil => intro i cum _; rfl
  | cons p rest ih =>
    intro i cum h
    have hs := sumWords_cons p rest
    rw [seekAux]
    have h2 : ¬ (cum + p.words.length > target) := by omega
    simp only [if_neg h2]
    exact ih (i + 1) (cum + p.words.length) (by omega)

/-- C1 counterexample: with playback running on the `[5, 0, 3]` document in
word mode at page 1 index 0, pressing next (`handleNext`) advances the cursor
to index 1 but leaves `isPlaying = true`, so not every explicit navigation
action forces a stop. -/
theorem handleNext_keeps_playing_counterexample :
    (handleNext doc503 { mode := Mode.word, isPlaying := true,
                         currentPage := 1, currentIndex := 0 }).isPlaying = true
    ∧ (handleNext doc503 { mode := Mode.word, isPlaying := true,
                           currentPage := 1, currentIndex := 0 }).currentIndex = 1 := by
  decide

/-- C1 (amended): the previous-unit step, previous/next page (when one
exists), a valid numeric page jump, a mode switch and an in-range manual seek
all leave playback stopped; the next-unit step (`handleNext`) never changes
the playback flag at all. -/
theorem navigation_stops_playback_except_next (doc : Doc) (s : ReaderState)
    (m : Mode) (pageNum target : Nat) :
    (handlePrevious doc s).isPlaying = false
    ∧ (1 < s.currentPage → (handlePrevPage doc s).isPlaying = false)
    ∧ (s.currentPage < doc.totalPages → (handleNextPage doc s).isPlaying = false)
    ∧ (1 ≤ pageNum → pageNum ≤ doc.totalPages →
        (handleGoToPage doc s pageNum).isPlaying = false)
    ∧ (handleModeSwitch s m).isPlaying = false
    ∧ (target < sumWords doc.pages →
        (updateProgressFromPosition doc s target).isPlaying = false)
    ∧ (handleNext doc s).isPlaying = s.isPlaying := by
  refine ⟨?_, ?_, ?_, ?_, ?_, ?_, ?_⟩
  · rw [handlePrevious]
    split_ifs <;> rfl
  · intro h
    rw [handlePrevPage]
    simp [h]
  · intro h
    rw [handleNextPage]
    simp [h]
  · intro h1 h2
    rw [handleGoToPage]
    simp [h1, h2]
  · rfl
  · intro h
    exact seekAux_stops s.mode target s doc.pages 0 0 (Nat.zero_le _) (by omega)
  · rw [handleNext]
    split_ifs <;> rfl

/-- Witness for the amended C1 theorem at a concrete document and state. -/
theorem navigation_stops_playback_except_next_witness :
    (handlePrevious doc503 { mode := Mode.word, isPlaying := true,
                             currentPage := 2, currentIndex := 0 }).isPlaying = false
    ∧ (handlePrevPage doc503 { mode := Mode.word, isPlaying := true,
                               currentPage := 2, currentIndex := 0 }).isPlaying = false
    ∧ (handleNextPage doc503 { mode := Mode.word, isPlaying := true,
                               currentPage := 2, currentIndex := 0 }).isPlaying = false
    ∧ (handleGoToPage doc503 { mode := Mode.word, isPlaying := true,
                               currentPage := 2, currentIndex := 0 } 1).isPlaying = false
    ∧ (handleModeSwitch { mode := Mode.word, isPlaying := true,
                          currentPage := 2, currentIndex := 0 } Mode.sentence).isPlaying = false
    ∧ (updateProgressFromPosition doc503
        { mode := Mode.word, isPlaying := true,
          currentPage := 2, currentIndex := 0 } 0).isPlaying = false
    ∧ (handleNext doc503 { mode := Mode.word, isPlaying := true,
                           currentPage := 2, currentIndex := 0 }).isPlaying = true := by
  have h := navigation_stops_playback_except_next doc503
    { mode := Mode.word, isPlaying := true, currentPage := 2, currentIndex := 0 }
    Mode.sentence 1 0
  exact ⟨h.1, h.2.1 (by decide), h.2.2.1 (by decide), h.2.2.2.1 (by decide) (by decide),
    h.2.2.2.2.1, h.2.2.2.2.2.1 (by decide), h.2.2.2.2.2.2⟩

/-- Splitting at every occurrence of a separator character yields one more
segment than the number of occurrences. -/
theorem splitChar_length (sep : Char) :
    ∀ (cs cur : List Char), (splitChar sep cs cur).length = cs.count sep + 1 := by
  intro cs
  induction cs with
  | nil => intro cur; rfl
  | cons c rest ih =>
    intro cur
    rw [splitChar]
    by_cases h : c = sep
    · subst h
      simp [ih, List.count_cons_self]
    · rw [if_neg h]
      rw [ih]
      congr 1
      exact (List.count_cons_of_ne (fun hne => h hne.symm) rest).symm

/-- JavaScript `s.split(' ')` produces `count of spaces + 1` segments. -/
theorem jsSplitSpace_length (s : String) :
    (jsSplitSpace s).length = s.data.count ' ' + 1 :=
  splitChar_length ' ' s.data []

/-- The whitespace-run split always extends the accumulator by at least one
segment. -/
theorem splitWsAux_length_lt (cs : List Char) :
    ∀ (cur : List Char) (acc : List String) (b : Bool),
      acc.length < (splitWsAux cs cur acc b).length := by
  induction cs with
  | nil =>
    intro cur acc b
    simp [splitWsAux]
  | cons c rest ih =>
    intro cur acc b
    rw [splitWsAux]
    by_cases hw : c.isWhitespace
    · rw [if_pos hw]
      cases b with
      | true =>
        simpa using ih [] acc true
      | false =>
        have h1 := ih [] (acc ++ [String.mk cur.reverse]) true
        simp only [List.length_append, List.length_cons, List.length_nil] at h1
        simpa using Nat.lt_of_le_of_lt (by omega) h1
    · rw [if_neg hw]
      exact ih (c :: cur) acc false

/-- JavaScript `s.split(/\s+/)` never produces an empty segment list. -/
theorem jsSplitWhitespace_length_pos (s : String) :
    0 < (jsSplitWhitespace s).length := by
  simpa using splitWsAux_length_lt s.data [] [] false

/-- C3 counterexample: with playback running in sentence mode on the sentence
`"a  b"` (two words separated by a double space) at 600 WPM, the scheduled
delay is `100 * 3 * 0.8 = 240` ms — the source multiplies by
`split(' ').length`, which counts 3 segments — whereas the claimed formula
`baseMs * wordCountOf(sentence) * 0.8` gives `100 * 2 * 0.8 = 160` ms. -/
theorem sentence_delay_counterexample :
    autoPlayDelay docDoubleSpace
        { mode := Mode.sentence, isPlaying := true,
          currentPage := 1, currentIndex := 0 } 600 = some 240
    ∧ (60000 / 600 : ℚ) * (wordCount "a  b" : ℚ) * (8 / 10) = 160
    ∧ (240 : ℚ) ≠ 160 := by
  refine ⟨?_, ?_, by norm_num⟩
  · have heq : autoPlayDelay docDoubleSpace
        { mode := Mode.sentence, isPlaying := true,
          currentPage := 1, currentIndex := 0 } 600
        = some ((60000 / 600 : ℚ) * ((3 : ℕ) : ℚ) * (8 / 10)) := by rfl
    rw [heq]
    norm_num
  · have : wordCount "a  b" = 2 := by decide
    rw [this]
    norm_num

/-- C3 (amended): while playback is running with a non-empty unit sequence,
the scheduled delay is `60000/speedWPM` in word mode;
`60000/speedWPM * (1 + number of space characters in the current sentence)
* 0.8` in sentence mode (`split(' ').length`, which equals the sentence's
word count only when words are separated by single spaces); and
`60000/speedWPM * (number of segments of the page text split on whitespace
runs)` in page mode. -/
theorem autoPlayDelay_formula (doc : Doc) (s : ReaderState) (speed : ℚ)
    (hp : s.isPlaying = true) (hc : getCurrentContent doc s ≠ []) :
    (s.mode = Mode.word → autoPlayDelay doc s speed = some (60000 / speed))
    ∧ (s.mode = Mode.sentence →
        autoPlayDelay doc s speed
          = some (60000 / speed *
              ((((getCurrentContent doc s).getD s.currentIndex "").data.count ' ' : ℚ) + 1)
              * (8 / 10)))
    ∧ (s.mode = Mode.page →
        autoPlayDelay doc s speed
          = some (60000 / speed *
              ((jsSplitWhitespace
                  ((getCurrentContent doc s).getD s.currentIndex "")).length : ℚ))) := by
  rw [autoPlayDelay]
  rw [if_pos ⟨hp, hc⟩]
  refine ⟨?_, ?_, ?_⟩
  · intro hm; rw [hm]
  · intro hm
    rw [hm]
    have hlen := jsSplitSpace_length ((getCurrentContent doc s).getD s.currentIndex "")
    have hne : (jsSplitSpace ((getCurrentContent doc s).getD s.currentIndex "")).length ≠ 0 := by
      omega
    simp only [hne, if_false, hlen]
    push_cast
    ring_nf
  · intro hm
    rw [hm]
    have hpos := jsSplitWhitespace_length_pos ((getCurrentContent doc s).getD s.currentIndex "")
    have hne : (jsSplitWhitespace ((getCurrentContent doc s).getD s.currentIndex "")).length ≠ 0 := by
      omega
    simp only [hne, if_false]

/-- Witness for the amended C3 theorem: the three mode formulas evaluated on a
concrete document at 600 WPM. -/
theorem autoPlayDelay_formula_witness :
    autoPlayDelay docDoubleSpace
        { mode := Mode.word, isPlaying := true,
          currentPage := 1, currentIndex := 0 } 600 = some (60000 / 600)
    ∧ autoPlayDelay docDoubleSpace
        { mode := Mode.sentence, isPlaying := true,
          currentPage := 1, currentIndex := 0 } 600
        = some (60000 / 600 *
            ((((getCurrentContent docDoubleSpace
                  { mode := Mode.sentence, isPlaying := true,
                    currentPage := 1, currentIndex := 0 }).getD 0 "").data.count ' ' : ℚ) + 1)
            * (8 / 10))
    ∧ autoPlayDelay docDoubleSpace
        { mode := Mode.page, isPlaying := true,
          currentPage := 1, currentIndex := 0 } 600
        = some (60000 / 600 *
            ((jsSplitWhitespace
                ((getCurrentContent docDoubleSpace
                    { mode := Mode.page, isPlaying := true,
                      currentPage := 1, currentIndex := 0 }).getD 0 "")).length : ℚ)) :=
  ⟨(autoPlayDelay_formula docDoubleSpace _ 600 rfl (by decide)).1 rfl,
   (autoPlayDelay_formula docDoubleSpace _ 600 rfl (by decide)).2.1 rfl,
   (autoPlayDelay_formula docDoubleSpace _ 600 rfl (by decide)).2.2 rfl⟩

/-- C4 at its failing input: in word mode at page 3 index 2 — the last word of
the last page of the `[5, 0, 3]` document — the end-of-document branch of the
scheduler persists `current_position = 2`, the page-relative index, while the
document-wide absolute offset of that cursor is 7; every other save trigger
passes the absolute offset. -/
theorem completion_save_uses_relative_index :
    (tickStep doc503 { mode := Mode.word, isPlaying := true,
                       currentPage := 3, currentIndex := 2 }).saves
      = [{ page := 3, position := 2, mode := Mode.word, completed := true }]
    ∧ calculateTotalPosition doc503 3 2 = 7
    ∧ debouncedSaveCall doc503 { mode := Mode.word, isPlaying := true,
                                 currentPage := 3, currentIndex := 2 }
        = { page := 3, position := 7, mode := Mode.word, completed := false }
    ∧ (2 : Nat) ≠ 7 := by
  decide

/-- C5: when the scheduler fires in word mode at the last unit of the last
page (the current index is the final index of a non-empty unit sequence and
the current page is at the total page count), the tick stops playback and
issues exactly one persistence call, carrying `completed = true`. -/
theorem end_of_document_completion (doc : Doc) (s : ReaderState)
    (_hplay : s.isPlaying = true) (_hmode : s.mode = Mode.word)
    (hlast : s.currentIndex + 1 = (getCurrentContent doc s).length)
    (hpage : doc.totalPages ≤ s.currentPage) :
    (tickStep doc s).state.isPlaying = false
    ∧ (tickStep doc s).saves
        = [{ page := s.currentPage, position := s.currentIndex,
             mode := s.mode, completed := true }] := by
  rw [tickStep]
  have h1 : ¬ (s.currentIndex < (getCurrentContent doc s).length - 1) := by omega
  have h2 : ¬ (s.currentPage < doc.totalPages) := by omega
  rw [if_neg h1, if_neg h2]
  exact ⟨rfl, rfl⟩

/-- Witness for the C5 theorem: the end-of-document tick on the `[5, 0, 3]`
document. -/
theorem end_of_document_completion_witness :
    (tickStep doc503 { mode := Mode.word, isPlaying := true,
                       currentPage := 3, currentIndex := 2 }).state.isPlaying = false
    ∧ (tickStep doc503 { mode := Mode.word, isPlaying := true,
                         currentPage := 3, currentIndex := 2 }).saves
        = [{ page := 3, position := 2, mode := Mode.word, completed := true }] :=
  end_of_document_completion doc503
    { mode := Mode.word, isPlaying := true, currentPage := 3, currentIndex := 2 }
    rfl rfl (by decide) (by decide)

/-- When the saved position is at least the total word count, the load scan
falls off the end of the page list, and the final iteration has clamped the
accumulator to the last page and its last word index. -/
theorem loadScanAux_clamp (savedPos : Nat) :
    ∀ (ps : List Page) (i cum : Nat) (acc : Nat × Nat) (lastP : Page),
      ps.getLast? = some lastP → cum + sumWords ps ≤ savedPos →
      loadScanAux savedPos ps i cum acc
        = (i + ps.length, lastP.words.length - 1) := by
  intro ps
  induction ps with
  | nil => intro i cum acc lastP h; simp at h
  | cons p rest ih =>
    intro i cum acc lastP hlast hsum
    have hs := sumWords_cons p rest
    rw [loadScanAux]
    have hno : ¬ (cum + p.words.length > savedPos) := by omega
    rw [if_neg hno]
    cases rest with
    | nil =>
      have hp : p = lastP := by simpa using hlast
      subst hp
      rfl
    | cons q rest2 =>
      have hlast2 : (q :: rest2).getLast? = some lastP := by
        rwa [List.getLast?_cons_cons] at hlast
      have hempty : ((q :: rest2 : List Page).isEmpty = false) := rfl
      rw [hempty]
      simp only [Bool.false_eq_true, if_false]
      rw [ih (i + 1) (cum + p.words.length) acc lastP hlast2 (by omega)]
      simp only [List.length_cons]
      congr 1
      omega

/-- The last page's word count is bounded by the total word count. -/
theorem lastPage_words_le_sumWords (ps : List Page) (lastP : Page)
    (h : ps.getLast? = some lastP) : lastP.words.length ≤ sumWords ps := by
  have hmem : lastP ∈ ps := List.mem_of_mem_getLast? (by rw [h]; rfl)
  have : lastP.words.length ∈ ps.map (fun p => p.words.length) :=
    List.mem_map_of_mem _ hmem
  exact List.le_sum_of_mem this

/-- The content scan finds exactly the first page with at least one word. -/
theorem firstContentAux_spec :
    ∀ (ps : List Page) (i k : Nat) (p : Page),
      ps[k]? = some p → p.words ≠ [] →
      (∀ m, m < k → ∀ q, ps[m]? = some q → q.words = []) →
      firstContentAux ps i = some (i + k + 1) := by
  intro ps
  induction ps with
  | nil => intro i k p h; simp at h
  | cons hd tl ih =>
    intro i k p hk hw hmin
    cases k with
    | zero =>
      have hp : hd = p := by simpa using hk
      subst hp
      have hpos : hd.words.length > 0 := List.length_pos.mpr hw
      rw [firstContentAux, if_pos hpos]
    | succ k2 =>
      have hhd : hd.words = [] := hmin 0 (Nat.succ_pos _) hd (by simp)
      rw [firstContentAux]
      have hnpos : ¬ (hd.words.length > 0) := by simp [hhd]
      rw [if_neg hnpos]
      have hk2 : tl[k2]? = some p := by simpa using hk
      have hmin2 : ∀ m, m < k2 → ∀ q, tl[m]? = some q → q.words = [] := by
        intro m hm q hq
        exact hmin (m + 1) (by omega) q (by simpa using hq)
      rw [ih (i + 1) k2 p hk2 hw hmin2]
      congr 1
      omega

/-- C6: on loading saved progress, a saved absolute offset at least the total
word count resolves to the last page at its last word index, and a saved
offset of 0 resolves to the first page that has at least one word, at
index 0. -/
theorem loadProgress_clamp_and_fresh_start (doc : Doc) (savedPage savedPos : Nat) :
    (∀ lastP : Page, doc.pages.getLast? = some lastP → lastP.words ≠ [] →
        sumWords doc.pages ≤ savedPos →
        loadProgress doc savedPage savedPos
          = (doc.pages.length, lastP.words.length - 1))
    ∧ (∀ (k : Nat) (p : Page), savedPos = 0 → doc.pages[k]? = some p →
        p.words ≠ [] →
        (∀ m, m < k → ∀ q, doc.pages[m]? = some q → q.words = []) →
        loadProgress doc savedPage savedPos = (k + 1, 0)) := by
  constructor
  · intro lastP hlast hwords hsum
    have h1 : lastP.words.length ≤ sumWords doc.pages :=
      lastPage_words_le_sumWords doc.pages lastP hlast
    have h2 : 0 < lastP.words.length := List.length_pos.mpr hwords
    have hpos : ¬ (savedPos = 0) := by omega
    rw [loadProgress]
    simp only [if_neg hpos]
    rw [loadScanAux_clamp savedPos doc.pages 0 0 (1, 0) lastP hlast (by omega)]
    simp
  · intro k p h0 hk hw hmin
    subst h0
    rw [loadProgress]
    simp only [if_pos rfl]
    rw [firstContentFrom, List.drop_zero]
    rw [firstContentAux_spec doc.pages 0 k p hk hw hmin]
    simp

/-- Witness for the C6 theorem: on the `[5, 0, 3]` document a saved offset of
10 (total is 8) clamps to page 3 index 2; on a document whose first page has
no words, a saved offset of 0 resolves to page 2 index 0. -/
theorem loadProgress_clamp_and_fresh_start_witness :
    loadProgress doc503 1 10 = (3, 2)
    ∧ loadProgress docEmptyFirst 1 0 = (2, 0) := by
  constructor
  · exact (loadProgress_clamp_and_fresh_start doc503 1 10).1
      { words := ["f", "g", "h"], sentences := ["f g h"], text := "f g h" }
      rfl (by decide) (by decide)
  · refine (loadProgress_clamp_and_fresh_start docEmptyFirst 1 0).2 1
      { words := ["x", "y"], sentences := ["x y"], text := "x y" }
      rfl rfl (by decide) ?_
    intro m hm q hq
    have hm0 : m = 0 := by omega
    subst hm0
    have : q = { words := [], sentences := [], text := "" } := by
      simpa [docEmptyFirst] using hq.symm
    rw [this]

/-- C7 counterexample: on the `[5, 0, 3]` document (8 words in total, and the
stats denominator is 8), a seek at `pointerFraction = 1` targets offset
`floor(1 * 8) = 8`, which lies past every page's cumulative range; the scan
finds no page, so the cursor is left unchanged — still page 1 index 2, still
playing — instead of being clamped to the last valid unit (page 3, index 2).
-/
theorem seek_full_fraction_counterexample :
    seekTarget doc503 1 = 8
    ∧ updateProgressFromPosition doc503
        { mode := Mode.word, isPlaying := true,
          currentPage := 1, currentIndex := 2 } (seekTarget doc503 1)
      = { mode := Mode.word, isPlaying := true,
          currentPage := 1, currentIndex := 2 }
    ∧ (updateProgressFromPosition doc503
        { mode := Mode.word, isPlaying := true,
          currentPage := 1, currentIndex := 2 } (seekTarget doc503 1)).currentPage ≠ 3 := by
  have h8 : seekTarget doc503 1 = 8 := by
    rw [seekTarget]
    norm_num [doc503]
    rfl
  refine ⟨h8, ?_, ?_⟩ <;> rw [h8] <;> decide

/-- C7 (amended): a seek whose target offset is at least the sum of all
pages' word counts — in particular `pointerFraction = 1`, which gives
`targetOffset = floor(1 * totalWords) = totalWords`, past every page's
cumulative range when the stats total matches the page sum — is a silent
no-op: the cursor and the playback flag are left unchanged, not resolved to
the last valid unit. -/
theorem seek_out_of_range_noop (doc : Doc) (s : ReaderState) (target : Nat)
    (h : sumWords doc.pages ≤ target) :
    updateProgressFromPosition doc s target = s
    ∧ (doc.totalWords = sumWords doc.pages →
        updateProgressFromPosition doc s (seekTarget doc 1) = s) := by
  constructor
  · exact seekAux_out_of_range s.mode target s doc.pages 0 0 (by omega)
  · intro ht
    have hfull : seekTarget doc 1 = doc.totalWords := by
      rw [seekTarget]
      norm_num
    apply seekAux_out_of_range
    omega

/-- Witness for the amended C7 theorem on the `[5, 0, 3]` document. -/
theorem seek_out_of_range_noop_witness :
    updateProgressFromPosition doc503
        { mode := Mode.sentence, isPlaying := true,
          currentPage := 2, currentIndex := 1 } 9
      = { mode := Mode.sentence, isPlaying := true,
          currentPage := 2, currentIndex := 1 }
    ∧ updateProgressFromPosition doc503
        { mode := Mode.sentence, isPlaying := true,
          currentPage := 2, currentIndex := 1 } (seekTarget doc503 1)
      = { mode := Mode.sentence, isPlaying := true,
          currentPage := 2, currentIndex := 1 } :=
  ⟨(seek_out_of_range_noop doc503
      { mode := Mode.sentence, isPlaying := true,
        currentPage := 2, currentIndex := 1 } 9 (by decide)).1,
   (seek_out_of_range_noop doc503
      { mode := Mode.sentence, isPlaying := true,
        currentPage := 2, currentIndex := 1 } 9 (by decide)).2 rfl⟩

/-- Ceiling of a quotient of naturals over ℚ is the rounded-up integer
division. -/
theorem nat_ceil_div_eq (a b : Nat) (hb : 0 < b) :
    Nat.ceil ((a : ℚ) / (b : ℚ)) = (a + b - 1) / b := by
  have hbq : (0 : ℚ) < (b : ℚ) := by exact_mod_cast hb
  rcases Nat.eq_zero_or_pos a with ha | ha
  · subst ha
    rw [Nat.cast_zero, zero_div, Nat.ceil_zero, Nat.zero_add]
    exact (Nat.div_eq_of_lt (by omega)).symm
  · have hdm := Nat.div_add_mod (a + b - 1) b
    have hmlt : (a + b - 1) % b < b := Nat.mod_lt _ hb
    have hnpos : 0 < (a + b - 1) / b := Nat.div_pos (by omega) hb
    rw [Nat.ceil_eq_iff (by omega : (a + b - 1) / b ≠ 0)]
    obtain ⟨n, hn⟩ : ∃ n, (a + b - 1) / b = n := ⟨_, rfl⟩
    obtain ⟨r, hr⟩ : ∃ r, (a + b - 1) % b = r := ⟨_, rfl⟩
    rw [hn, hr] at hdm
    rw [hr] at hmlt
    rw [hn] at hnpos ⊢
    obtain ⟨k, hk⟩ : ∃ k, b * n = k := ⟨_, rfl⟩
    rw [hk] at hdm
    constructor
    · rw [lt_div_iff₀ hbq]
      have hnat : (n - 1) * b < a := by
        rw [Nat.sub_mul, Nat.one_mul, Nat.mul_comm n b, hk]
        omega
      exact_mod_cast hnat
    · rw [div_le_iff₀ hbq]
      have hnat : a ≤ n * b := by
        rw [Nat.mul_comm n b, hk]
        omega
      exact_mod_cast hnat

/-- For a clean word of length at least 4, the specified highlight length
`max 1 ceil(0.45 L)` coincides with the integer formula the code computes. -/
theorem specHighlightLen_eq_code (L : Nat) (h4 : 4 ≤ L) :
    specHighlightLen L = max 1 ((9 * L + 19) / 20) := by
  rw [specHighlightLen, if_neg (by omega : ¬ L = 0), if_neg (by omega : ¬ L = 1),
      if_neg (by omega : ¬ L = 2), if_neg (by omega : ¬ L = 3)]
  congr 1
  have hcast : (45 / 100 : ℚ) * (L : ℚ) = ((9 * L : ℕ) : ℚ) / ((20 : ℕ) : ℚ) := by
    push_cast
    ring
  rw [hcast, nat_ceil_div_eq (9 * L) 20 (by omega)]
  have he : 9 * L + 20 - 1 = 9 * L + 19 := by omega
  rw [he]

/-- The specified highlight length never exceeds the clean word length. -/
theorem specHighlightLen_le (L : Nat) : specHighlightLen L ≤ L := by
  by_cases h4 : 4 ≤ L
  · rw [specHighlightLen_eq_code L h4]
    rw [Nat.max_le]
    constructor <;> omega
  · rw [specHighlightLen]
    split_ifs <;> omega

/-- In every branch, `getBionicParts` is the clean word split at the
specified highlight length, together with the trailing punctuation run. -/
theorem getBionicParts_eq (w : String) :
    getBionicParts w
      = (String.mk ((bionicClean w).take (specHighlightLen (bionicClean w).length)),
         String.mk ((bionicClean w).drop (specHighlightLen (bionicClean w).length)),
         String.mk (bionicPunct w)) := by
  rw [getBionicParts]
  by_cases hemp : w.data.isEmpty
  · rw [if_pos hemp]
    have hd : w.data = [] := List.isEmpty_iff.mp hemp
    have hc : bionicClean w = [] := by rw [bionicClean, hd]; rfl
    have hp : bionicPunct w = [] := by rw [bionicPunct, hd]; rfl
    rw [hc, hp]
    rfl
  · rw [if_neg hemp]
    by_cases h0 : (bionicClean w).length = 0
    · have hc : bionicClean w = [] := List.length_eq_zero.mp h0
      rw [if_pos h0, h0, hc]
      rfl
    · rw [if_neg h0]
      by_cases h1 : (bionicClean w).length = 1
      · rw [if_pos h1, h1]
        have hs : specHighlightLen 1 = 1 := rfl
        have ht : (bionicClean w).take 1 = bionicClean w :=
          List.take_of_length_le (by omega)
        have hd : (bionicClean w).drop 1 = [] :=
          List.drop_eq_nil_of_le (by omega)
        rw [hs, ht, hd]
      · rw [if_neg h1]
        by_cases h2 : (bionicClean w).length = 2
        · rw [if_pos h2, h2]
          rfl
        · rw [if_neg h2]
          by_cases h3 : (bionicClean w).length = 3
          · rw [if_pos h3, h3]
            rfl
          · rw [if_neg h3]
            rw [specHighlightLen_eq_code (bionicClean w).length (by omega)]

/-- Stripping the trailing punctuation and putting it back restores the
word. -/
theorem bionicClean_append_punct (w : String) :
    bionicClean w ++ bionicPunct w = w.data := by
  rw [bionicClean, bionicPunct, ← List.reverse_append,
      List.takeWhile_append_dropWhile, List.reverse_reverse]

/-- The head of the remainder of a `dropWhile` never satisfies the
predicate. -/
theorem head_dropWhile_false (p : Char → Bool) (l : List Char) (c : Char)
    (h : (l.dropWhile p).head? = some c) : p c = false := by
  have hm := List.head?_dropWhile_not p l
  rw [h] at hm
  exact hm

/-- C8: for every word string, `getBionicParts` splits the word into
highlighted prefix, rest and trailing punctuation such that: the three parts
concatenate back to the word; every punctuation character belongs to the set
`{. ! ? ; : ,}`; the clean word does not end in such a character (the run is
maximal); the highlighted part has exactly the specified length — 0 for an
empty clean word, the entire letter for length 1, the first letter for
length 2, the first two letters for length 3, and `ceil(L * 0.45)` (at least
1) characters for length at least 4; and in particular `"reading"` splits
into `"read"` / `"ing"` and `"a."` into `"a"` / `""` / `"."`. -/
theorem getBionicParts_spec (w : String) :
    (getBionicParts w).1.data ++ (getBionicParts w).2.1.data
        ++ (getBionicParts w).2.2.data = w.data
    ∧ (∀ c ∈ (getBionicParts w).2.2.data, isPunctChar c = true)
    ∧ (∀ c, ((getBionicParts w).1.data ++ (getBionicParts w).2.1.data).getLast?
          = some c → isPunctChar c = false)
    ∧ (getBionicParts w).1.data.length
        = specHighlightLen (w.data.length - (getBionicParts w).2.2.data.length)
    ∧ getBionicParts "reading" = ("read", "ing", "")
    ∧ getBionicParts "a." = ("a", "", ".") := by
  rw [getBionicParts_eq]
  have happ := bionicClean_append_punct w
  have hlen : (bionicClean w).length + (bionicPunct w).length = w.data.length := by
    have := congrArg List.length happ
    simpa using this
  refine ⟨?_, ?_, ?_, ?_, by decide, by decide⟩
  · show (bionicClean w).take _ ++ (bionicClean w).drop _ ++ bionicPunct w = w.data
    rw [List.take_append_drop]
    exact happ
  · intro c hc
    show isPunctChar c = true
    have hc2 : c ∈ (w.data.reverse.takeWhile isPunctChar) := by
      rw [bionicPunct] at hc
      exact List.mem_reverse.mp hc
    exact List.mem_takeWhile_imp hc2
  · intro c hc
    rw [List.take_append_drop] at hc
    rw [bionicClean, List.getLast?_reverse] at hc
    exact head_dropWhile_false isPunctChar w.data.reverse c hc
  · show ((bionicClean w).take _).length = _
    rw [List.length_take]
    have hsub : w.data.length - (bionicPunct w).length = (bionicClean w).length := by
      omega
    rw [hsub]
    exact Nat.min_eq_left (specHighlightLen_le (bionicClean w).length)

/-- Witness for the C8 theorem at the two words of the specification's
scenario. -/
theorem getBionicParts_spec_witness :
    getBionicParts "reading" = ("read", "ing", "")
    ∧ getBionicParts "a." = ("a", "", ".") :=
  ⟨(getBionicParts_spec "reading").2.2.2.2.1,
   (getBionicParts_spec "a.").2.2.2.2.2⟩

/-- C9: on a transition from Running to Stopped (the session-stats effect's
cleanup followed by its body re-run, which is also what runs when the reading
view closes), the tracker flushes `{wordsRead, round((now - start)/1000)}` to
the stats collaborator and resets both the session start and the word counter
exactly when a session start was recorded and at least one word was counted;
when no session start was recorded, or no word was counted, nothing is sent.
-/
theorem stats_flush_iff (st : SessionState) (now : Nat)
    (_hrun : st.isPlaying = true) :
    (∀ t, st.sessionStart = some t → 0 < st.wordsRead →
        statsTransition st false now
          = ({ isPlaying := false, sessionStart := none, wordsRead := 0 },
             some { wordsRead := st.wordsRead,
                    timeSpentSeconds := jsRound (((now : ℚ) - (t : ℚ)) / 1000) }))
    ∧ (st.sessionStart = none →
        statsTransition st false now = ({ st with isPlaying := false }, none))
    ∧ (st.wordsRead = 0 →
        statsTransition st false now = ({ st with isPlaying := false }, none)) := by
  refine ⟨?_, ?_, ?_⟩
  · intro t ht hw
    simp [statsTransition, statsCleanup, statsEffectBody, ht, hw]
  · intro ht
    simp [statsTransition, statsCleanup, statsEffectBody, ht]
  · intro hw
    cases hss : st.sessionStart with
    | none => simp [statsTransition, statsCleanup, statsEffectBody, hss]
    | some t => simp [statsTransition, statsCleanup, statsEffectBody, hss, hw]

/-- Witness for the C9 theorem: a running session started at 1000 ms with 5
words read, stopped at 3500 ms, flushes `{5, 3}` and resets; a running state
with no recorded session start sends nothing. -/
theorem stats_flush_iff_witness :
    statsTransition { isPlaying := true, sessionStart := some 1000,
                      wordsRead := 5 } false 3500
      = ({ isPlaying := false, sessionStart := none, wordsRead := 0 },
         some { wordsRead := 5, timeSpentSeconds := 3 })
    ∧ statsTransition { isPlaying := true, sessionStart := none,
                        wordsRead := 5 } false 3500
      = ({ isPlaying := false, sessionStart := none, wordsRead := 5 }, none) := by
  constructor
  · have h := (stats_flush_iff
      { isPlaying := true, sessionStart := some 1000, wordsRead := 5 }
      3500 rfl).1 1000 rfl (by norm_num)
    rw [h]
    have hj : jsRound ((((3500 : Nat) : ℚ) - ((1000 : Nat) : ℚ)) / 1000) = 3 := by
      rw [jsRound]
      norm_num
    rw [hj]
  · exact (stats_flush_iff
      { isPlaying := true, sessionStart := none, wordsRead := 5 }
      3500 rfl).2.1 rfl

/-- C10: the record built by `saveCurrentPosition` — shared by the
visibility-change, before-unload and unmount-cleanup triggers — always
carries `completed = false` (and the absolute offset of the latest cursor),
so applying it to a store that holds `completed = true` overwrites the
record with `completed = false`. -/
theorem beacon_save_always_incomplete (doc : Doc) (s : ReaderState)
    (prev : SaveCall) (_hprev : prev.completed = true) :
    (saveCurrentPosition (latestPositionOf doc s)).completed = false
    ∧ (saveCurrentPosition (latestPositionOf doc s)).position
        = getAbsolutePosition doc s
    ∧ (applySave (some prev) (saveCurrentPosition (latestPositionOf doc s))).map
        SaveCall.completed = some false :=
  ⟨rfl, rfl, rfl⟩

/-- Witness for the C10 theorem: after the end-of-document record
`completed = true` at page 3 index 2 of the `[5, 0, 3]` document, a beacon
save overwrites the store with `completed = false`. -/
theorem beacon_save_always_incomplete_witness :
    (saveCurrentPosition (latestPositionOf doc503
        { mode := Mode.word, isPlaying := false,
          currentPage := 3, currentIndex := 2 })).completed = false
    ∧ (saveCurrentPosition (latestPositionOf doc503
        { mode := Mode.word, isPlaying := false,
          currentPage := 3, currentIndex := 2 })).position
        = getAbsolutePosition doc503
            { mode := Mode.word, isPlaying := false,
              currentPage := 3, currentIndex := 2 }
    ∧ (applySave
        (some { page := 3, position := 2, mode := Mode.word, completed := true })
        (saveCurrentPosition (latestPositionOf doc503
          { mode := Mode.word, isPlaying := false,
            currentPage := 3, currentIndex := 2 }))).map
        SaveCall.completed = some false :=
  beacon_save_always_incomplete doc503
    { mode := Mode.word, isPlaying := false, currentPage := 3, currentIndex := 2 }
    { page := 3, position := 2, mode := Mode.word, completed := true } rfl

end Sezi
